import Mathlib

/-!
Shallow embedding of the YMF271 emulation core (src/emu/cores/ymf271.c) and
proofs about the properties its specification claims.

Machine arithmetic conventions used throughout:
- unsigned C integers (UINT8/UINT16/UINT32/UINT64) are Nat, with an explicit
  mask or mod at exactly the points where the C code truncates;
- signed C integers (INT16/INT32/INT64) are Int; the C right shift on a
  signed value is arithmetic on every supported target and is modelled as
  floor division (asr below); a C assignment of an out-of-range value to a
  signed 16-bit variable wraps in two's complement on every supported
  target and is modelled by toInt16;
- the floating-point derived lookup tables (built by init_tables and
  init_detune_table with IEEE doubles) are kept as parameters of the
  embedding (structure Tables); each theorem that depends on a concrete
  table entry hypothesises exactly the values that the double computation
  provably produces, for example attenuation 0 = 65536 from
  65536 / pow(10, 0/20), which is exact in IEEE arithmetic, and
  plfo wave 0 phase = 1 from pow(2, 0), also exact.
-/

set_option maxHeartbeats 1000000
set_option linter.unusedTactic false
set_option linter.unreachableTactic false

/- The rational operations of Batteries are marked irreducible, which
blocks kernel evaluation of the closed runs below; restore the ordinary
reducibility of their definitions for this file. -/
set_option allowUnsafeReducibility true
attribute [local semireducible] Rat.mul Rat.add Rat.div Rat.sub Rat.inv Rat.neg

namespace YMF271

/-- Two's-complement truncation of a nonnegative machine value to a signed
16-bit integer, as performed by a C assignment to an INT16 variable on the
targets this core supports. -/
def toInt16 (x : Nat) : Int :=
  let r := x % 65536
  if r < 32768 then (r : Int) else (r : Int) - 65536

/-- Saturation to the signed 18-bit range, transcribing the clamping
if-chains guarded by ACC_18BIT_MAX = 131071 and ACC_18BIT_MIN = -131072
in update_pcm. -/
def sat18 (x : Int) : Int :=
  if x > 131071 then 131071 else if x < -131072 then -131072 else x

/-- Arithmetic right shift of a signed value by n bits, i.e. floor
division by 2 to the n, matching the C right shift on signed operands. -/
def asr (x : Int) (n : Nat) : Int := Int.fdiv x (2 ^ n)

/-- The floating-point derived lookup tables of the chip, built once by
init_tables and init_detune_table from IEEE double computations (sin, pow).
The embedding keeps them as parameters; theorems that need concrete
entries hypothesise exactly the values the double computation provably
yields.  Field names follow the lut_ fields of YMF271Chip. -/
structure Tables where
  plfo : Nat → Nat → Nat → ℚ
  lfo : Nat → ℚ
  ar : Nat → ℚ
  dc : Nat → ℚ
  attenuation : Nat → Int
  total_level : Nat → Int
  env_volume : Int → Int
  detune : Nat → Nat → Int

/-- multiple_table of the source, exact rational values of the doubles. -/
def multiple_table : List ℚ :=
  [1/2, 1, 2, 3, 4, 5, 6, 7, 8, 9, 10, 11, 12, 13, 14, 15]

/-- pow_table of the source, exact rational values of the doubles. -/
def pow_table : List ℚ :=
  [128, 256, 512, 1024, 2048, 4096, 8192, 16384, 1/2, 1, 2, 4, 8, 16, 32, 64]

/-- fs_frequency of the source, exact rational values of the doubles. -/
def fs_frequency : List ℚ := [1, 1/2, 1/4, 1/8]

/-- RKS_Table of the source: rate key scaling offsets, indexed by keycode
(0-31) then keyscale (0-3). -/
def RKS_Table : List (List Nat) :=
  [[0, 0, 0, 0], [0, 0, 0, 0], [0, 0, 0, 1], [0, 0, 0, 1],
   [0, 0, 1, 2], [0, 0, 1, 2], [0, 0, 1, 3], [0, 0, 1, 3],
   [0, 0, 1, 4], [0, 0, 1, 4], [0, 0, 2, 5], [0, 0, 2, 5],
   [0, 0, 1, 6], [0, 0, 1, 6], [0, 0, 1, 7], [0, 0, 1, 7],
   [0, 0, 2, 8], [0, 0, 2, 8], [0, 0, 2, 9], [0, 0, 2, 9],
   [0, 0, 2, 10], [0, 0, 2, 10], [0, 0, 2, 11], [0, 0, 2, 11],
   [0, 0, 3, 12], [0, 0, 3, 12], [0, 0, 3, 13], [0, 0, 3, 13],
   [0, 0, 3, 14], [0, 0, 3, 14], [0, 0, 3, 15], [0, 0, 3, 15]]

/-- fm_tab of the source: maps the low address nibble to an FM group
number, -1 marking invalid nibbles. -/
def fm_tab : List Int := [0, 1, 2, -1, 3, 4, 5, -1, 6, 7, 8, -1, 9, 10, 11, -1]

/-- pcm_tab of the source: maps the low address nibble to a PCM slot
number, -1 marking invalid nibbles. -/
def pcm_tab : List Int :=
  [0, 4, 8, -1, 12, 16, 20, -1, 24, 28, 32, -1, 36, 40, 44, -1]

/-- lut_alfo of the source.  Unlike the other lookup tables this one is
computed in exact integer arithmetic (init_tables, amplitude LFO section),
so it can be embedded as a concrete function: wave 0 is constant 0, wave 1
a falling saw, wave 2 a square, wave 3 a triangle, in the range 0..65536.
Only waves 0..3 exist (lfowave is a 2-bit field). -/
def lut_alfo (wave i : Nat) : Int :=
  if wave = 0 then 0
  else if wave = 1 then ((65536 - (i * 65536) / 256 : Nat) : Int)
  else if wave = 2 then (if i < 128 then 65536 else 0)
  else if wave = 3 then
    (((if i < 128 then 65536 - ((i % 128) * 65536) / 128
       else ((i % 128) * 65536) / 128 : Nat)) : Int)
  else 0

/-- Entry written by init_tables for every index of waveform table 6: the
C statement stores (INT16)(1 * MAXOUT) with MAXOUT = +32768, and the
conversion of 32768 to INT16 wraps in two's complement. -/
def lut_waves6 (_i : Nat) : Int := toInt16 (1 * 32768)

/-- One of the 48 voice slots (struct YMF271Slot).  UINT8/UINT32/UINT64
register fields are Nat, INT32/INT64 runtime fields are Int, the UINT8
flags active/altloop/accon are Bool (0 = false, nonzero = true), and the
double field lfo_phasemod is an exact rational. -/
structure Slot where
  ext_en : Nat
  ext_out : Nat
  lfoFreq : Nat
  lfowave : Nat
  pms : Nat
  ams : Nat
  detune : Nat
  multiple : Nat
  tl : Nat
  keyscale : Nat
  ar : Nat
  decay1rate : Nat
  decay2rate : Nat
  decay1lvl : Nat
  relrate : Nat
  block : Nat
  fns_hi : Nat
  fns : Nat
  feedback : Nat
  waveform : Nat
  accon : Bool
  algorithm : Nat
  ch0_level : Nat
  ch1_level : Nat
  ch2_level : Nat
  ch3_level : Nat
  startaddr : Nat
  loopaddr : Nat
  endaddr : Nat
  altloop : Bool
  fs : Nat
  srcnote : Nat
  srcb : Nat
  step : Nat
  stepptr : Nat
  active : Bool
  bits : Nat
  volume : Int
  env_state : Nat
  env_attack_step : Int
  env_decay1_step : Int
  env_decay2_step : Int
  env_release_step : Int
  feedback_modulation0 : Int
  feedback_modulation1 : Int
  lfo_phase : Int
  lfo_step : Int
  lfo_amplitude : Int
  lfo_phasemod : ℚ
  loop_direction : Int

/-- The all-zero slot, used as the out-of-range default of list lookups
(never reached for the fixed-size 48-slot array of the source). -/
def slot0 : Slot :=
  { ext_en := 0, ext_out := 0, lfoFreq := 0, lfowave := 0, pms := 0, ams := 0
    detune := 0, multiple := 0, tl := 0, keyscale := 0, ar := 0
    decay1rate := 0, decay2rate := 0, decay1lvl := 0, relrate := 0
    block := 0, fns_hi := 0, fns := 0, feedback := 0, waveform := 0
    accon := false, algorithm := 0
    ch0_level := 0, ch1_level := 0, ch2_level := 0, ch3_level := 0
    startaddr := 0, loopaddr := 0, endaddr := 0, altloop := false
    fs := 0, srcnote := 0, srcb := 0, step := 0, stepptr := 0
    active := false, bits := 8, volume := 0, env_state := 0
    env_attack_step := 0, env_decay1_step := 0, env_decay2_step := 0
    env_release_step := 0, feedback_modulation0 := 0
    feedback_modulation1 := 0, lfo_phase := 0, lfo_step := 0
    lfo_amplitude := 0, lfo_phasemod := 1, loop_direction := 1 }

/-- One of the 12 groups (struct YMF271Group). -/
structure Group where
  sync : Nat
  pfm : Nat
  muted : Bool

/-- The default group for out-of-range lookups. -/
def group0 : Group := { sync := 0, pfm := 0, muted := false }

/-- The chip state (struct YMF271Chip) restricted to the register-visible
and synthesis-relevant fields.  The ROM is a byte list (mem_base with
mem_size = mem.length); hasIrqHandler models whether irq_handler is
non-null, and the functions that may invoke it return the list of UINT8
arguments it would be called with. -/
structure Chip where
  slots : List Slot
  groups : List Group
  timerA : Nat
  timerB : Nat
  irqstate : Nat
  status : Nat
  end_status : Nat
  enable : Nat
  ext_address : Nat
  ext_rw : Nat
  ext_readlatch : Nat
  busy_flag : Nat
  mem : List Nat
  hasIrqHandler : Bool

/-- Read of slot i, defaulting outside the fixed 48-entry array. -/
def getSlot (c : Chip) (i : Nat) : Slot := c.slots.getD i slot0

/-- Write of slot i. -/
def setSlot (c : Chip) (i : Nat) (s : Slot) : Chip :=
  { c with slots := c.slots.set i s }

/-- Read of group g, defaulting outside the fixed 12-entry array. -/
def getGroup (c : Chip) (g : Nat) : Group := c.groups.getD g group0

/-- Write of group g. -/
def setGroup (c : Chip) (g : Nat) (x : Group) : Chip :=
  { c with groups := c.groups.set g x }

/-- ymf271_read_memory: mask the offset to 23 bits, then read the ROM if
in range and return 0 otherwise. -/
def ymf271_read_memory (mem : List Nat) (offset : Nat) : Nat :=
  let o := offset &&& 0x7fffff
  if h : o < mem.length then mem.get ⟨o, h⟩ else 0

/-- check_envelope_end: when volume has fallen to 0 or below, deactivate
the slot, clamp volume to 0 and report termination. -/
def check_envelope_end (s : Slot) : Slot × Bool :=
  if s.volume ≤ 0 then ({ s with active := false, volume := 0 }, true)
  else (s, false)

/-- update_envelope: the four-stage envelope state machine (attack 0,
decay1 1, decay2 2, release 3), volume in 16.16 fixed point. -/
def update_envelope (s : Slot) : Slot :=
  if s.env_state = 0 then
    let v := s.volume + s.env_attack_step
    if v ≥ 255 * 65536 then { s with volume := 255 * 65536, env_state := 1 }
    else { s with volume := v }
  else if s.env_state = 1 then
    let decay_level : Int := 255 - (s.decay1lvl : Int) * 16
    let r := check_envelope_end { s with volume := s.volume - s.env_decay1_step }
    if r.2 = false ∧ asr r.1.volume 16 ≤ decay_level then { r.1 with env_state := 2 }
    else r.1
  else if s.env_state = 2 then
    (check_envelope_end { s with volume := s.volume - s.env_decay2_step }).1
  else if s.env_state = 3 then
    (check_envelope_end { s with volume := s.volume - s.env_release_step }).1
  else s

/-- get_keyscaled_rate: add the rate-key-scaling offset and clamp to 63.
All quantities are nonnegative here, so the lower clamp of the source is
vacuous. -/
def get_keyscaled_rate (rate keycode keyscale : Nat) : Nat :=
  min 63 (rate + (RKS_Table.getD keycode []).getD keyscale 0)

/-- get_internal_keycode: 5-bit keycode from block and F-number with the
internal thresholds 0x780, 0x900, 0xa80. -/
def get_internal_keycode (block fns : Nat) : Nat :=
  let n43 := if fns < 0x780 then 0 else if fns < 0x900 then 1
             else if fns < 0xa80 then 2 else 3
  (block &&& 7) * 4 + n43

/-- get_external_keycode: keycode for PCM slots from srcb, srcnote, block
and F-number with the external thresholds 0x100, 0x300, 0x500, clamped
to 31. -/
def get_external_keycode (block fns srcb srcnote : Nat) : Nat :=
  let n43 := if fns < 0x100 then 0 else if fns < 0x300 then 1
             else if fns < 0x500 then 2 else 3
  min 31 (srcb * 4 + srcnote + ((block &&& 7) * 4 + n43))

/-- init_envelope: compute the four per-stage steps from the rate tables
(the C int cast truncates toward zero; all step values of the real chip
are nonnegative, where truncation and floor agree), set the initial
attack volume (255-160) in 16.16 fixed point and enter the attack
state. -/
def init_envelope (T : Tables) (s : Slot) : Slot :=
  let decay_level : Int := 255 - (s.decay1lvl : Int) * 16
  let keycode := if s.waveform ≠ 7 then get_internal_keycode s.block s.fns
    else get_external_keycode s.block (s.fns &&& 0x7ff) s.srcb s.srcnote
  let r1 := get_keyscaled_rate (s.ar * 2) keycode s.keyscale
  let atk : Int := if r1 < 4 then 0 else Rat.floor ((255 : ℚ) / T.ar r1 * 65536)
  let r2 := get_keyscaled_rate (s.decay1rate * 2) keycode s.keyscale
  let d1 : Int := if r2 < 4 then 0
    else Rat.floor (((255 : ℚ) - (decay_level : ℚ)) / T.dc r2 * 65536)
  let r3 := get_keyscaled_rate (s.decay2rate * 2) keycode s.keyscale
  let d2 : Int := if r3 < 4 then 0 else Rat.floor ((255 : ℚ) / T.dc r3 * 65536)
  let r4 := get_keyscaled_rate (s.relrate * 4) keycode s.keyscale
  let rl : Int := if r4 < 4 then 0 else Rat.floor ((255 : ℚ) / T.dc r4 * 65536)
  { s with env_attack_step := atk, env_decay1_step := d1,
           env_decay2_step := d2, env_release_step := rl,
           volume := (255 - 160) * 65536, env_state := 0 }

/-- init_lfo: reset the LFO phase, load amplitude and phase modulation
from the tables at phase 0 and compute the LFO step (the C int cast
truncates toward zero; the value is nonnegative). -/
def init_lfo (T : Tables) (s : Slot) : Slot :=
  { s with lfo_phase := 0,
           lfo_amplitude := lut_alfo s.lfowave 0,
           lfo_phasemod := T.plfo s.lfowave s.pms 0,
           lfo_step := Rat.floor ((256 : ℚ) * T.lfo s.lfoFreq / 44100 * 256) }

/-- calculate_step: recompute the 32-bit phase step.  The double
computation of the source is carried out in exact rational arithmetic;
the final (UINT32) cast truncates the nonnegative value. -/
def calculate_step (T : Tables) (s : Slot) : Slot :=
  if s.waveform = 7 then
    let st : ℚ := 2 * ((s.fns ||| 2048 : Nat) : ℚ) * pow_table.getD s.block 0
      * fs_frequency.getD s.fs 0 * multiple_table.getD s.multiple 0
      * s.lfo_phasemod / 8
    { s with step := (Rat.floor st).toNat % 2 ^ 32 }
  else
    let keycode := get_internal_keycode s.block s.fns
    let fns_detuned : Int := max 0 ((s.fns : Int) + T.detune s.detune keycode)
    let st : ℚ := 2 * (fns_detuned : ℚ) * pow_table.getD s.block 0
      * multiple_table.getD s.multiple 0 * 1024 * s.lfo_phasemod / 8192
    { s with step := (Rat.floor st).toNat % 2 ^ 32 }

/-- update_lfo: advance the LFO phase, reload amplitude and phase
modulation from the tables, then recompute the step.  The C index
expression (lfo_phase >> 8) & 255 on the INT32 phase is an arithmetic
shift followed by a low-bit mask, i.e. floor division then mod 256; an
INT32 wrap of the ever-growing phase changes the value by a multiple of
2 to the 32 and therefore never changes this index. -/
def update_lfo (T : Tables) (s : Slot) : Slot :=
  let phase := s.lfo_phase + s.lfo_step
  let idx := ((asr phase 8) % 256).toNat
  calculate_step T
    { s with lfo_phase := phase,
             lfo_amplitude := lut_alfo s.lfowave idx,
             lfo_phasemod := T.plfo s.lfowave s.pms idx }

/-- calculate_slot_volume: envelope level times amplitude-LFO depth times
total level, all in 0.16 fixed point. -/
def calculate_slot_volume (T : Tables) (s : Slot) : Int :=
  let lfo_volume : Int :=
    if s.ams = 0 then 65536
    else if s.ams = 1 then 65536 - asr (s.lfo_amplitude * 33124) 16
    else if s.ams = 2 then 65536 - asr (s.lfo_amplitude * 16742) 16
    else if s.ams = 3 then 65536 - asr (s.lfo_amplitude * 4277) 16
    else 65536
  let env_volume := asr (T.env_volume (255 - asr s.volume 16) * lfo_volume) 16
  asr (env_volume * T.total_level s.tl) 16

/-- The loop-handling block at the top of the update_pcm sample loop:
forward end handling (alternate-loop reversal or loop-address jump with
the two overflow fallbacks) and reverse loop-point reversal.  The Bool
reports whether the end was reached this sample (the source then raises
the end-status bit via calculate_status_end). -/
def pcm_loop_advance (s : Slot) : Slot × Bool :=
  if s.loop_direction > 0 then
    if s.stepptr >>> 16 > s.endaddr then
      if s.altloop then
        ({ s with loop_direction := -1,
                  stepptr := (s.endaddr <<< 16) ||| (s.stepptr &&& 0xffff) }, true)
      else
        let sp := (s.stepptr - (s.endaddr <<< 16) + (s.loopaddr <<< 16)) % 2 ^ 64
        let sp := if sp >>> 16 > s.endaddr then
            let sp2 := (sp &&& 0xffff) ||| (s.loopaddr <<< 16)
            if sp2 >>> 16 > s.endaddr then (sp2 &&& 0xffff) ||| (s.endaddr <<< 16)
            else sp2
          else sp
        ({ s with stepptr := sp }, true)
    else (s, false)
  else
    if s.stepptr >>> 16 < s.loopaddr then
      ({ s with loop_direction := 1,
                stepptr := (s.loopaddr <<< 16) ||| (s.stepptr &&& 0xffff) }, false)
    else (s, false)

/-- The sample-fetch block of update_pcm: 8-bit fetch with sign extension
via the INT16 assignment, or the packed 12-bit fetch (3 bytes per 2
samples).  The address arguments are truncated to UINT32 exactly where
the C expressions are. -/
def pcm_fetch (mem : List Nat) (s : Slot) : Int :=
  if s.bits = 8 then
    toInt16 ((ymf271_read_memory mem ((s.startaddr + (s.stepptr >>> 16)) % 2 ^ 32)) <<< 8)
  else
    let sample_index := (s.stepptr >>> 16) % 2 ^ 32
    let byte_offset := ((sample_index >>> 1) * 3) % 2 ^ 32
    if sample_index % 2 = 1 then
      toInt16 (((ymf271_read_memory mem ((s.startaddr + byte_offset + 2) % 2 ^ 32)) <<< 8) |||
        (((ymf271_read_memory mem ((s.startaddr + byte_offset + 1) % 2 ^ 32)) &&& 0x0f) <<< 4))
    else
      toInt16 (((ymf271_read_memory mem ((s.startaddr + byte_offset) % 2 ^ 32)) <<< 8) |||
        ((ymf271_read_memory mem ((s.startaddr + byte_offset + 1) % 2 ^ 32)) &&& 0xf0))

/-- The four per-frame mixing channels at one sample index of the
interleaved mix or acc scratch buffer. -/
structure Quad where
  c0 : Int
  c1 : Int
  c2 : Int
  c3 : Int

/-- The all-zero quad (the buffers are cleared at the top of each
chunk). -/
def quad0 : Quad := ⟨0, 0, 0, 0⟩

/-- Result of one iteration of the update_pcm sample loop: the updated
slot, the mix-buffer and acc-buffer cells at this sample index, and
whether the end address was passed (end-status bit request). -/
structure PcmOut where
  slot : Slot
  mix : Quad
  acc : Quad
  endHit : Bool

/-- One iteration of the update_pcm sample loop: loop handling, sample
fetch, envelope and LFO update, then either the accon accumulator path
(TL-scaled accumulation, 18-bit saturation, scale to 16 bit, per-channel
attenuated accumulation into the saturating acc buffer) or the normal
path (slot volume and channel attenuation into the mix buffer), then the
stepptr advance in the current loop direction (UINT64 wraparound). -/
def update_pcm_sample (T : Tables) (mem : List Nat) (s0 : Slot) (mix acc : Quad) :
    PcmOut :=
  let la := pcm_loop_advance s0
  let s1 := la.1
  let sample := pcm_fetch mem s1
  let s2 := update_lfo T (update_envelope s1)
  let out : PcmOut :=
    if s2.accon then
      let accumulation_factor : Int := if s2.tl = 0 then 2 else (s2.tl : Int) * 2
      let accumulated := sat18 (sample * accumulation_factor)
      let output := asr accumulated 2
      let upd := fun (a : Int) (lvl : Nat) =>
        sat18 (a + asr (output * T.attenuation lvl) 16)
      { slot := s2, mix := mix,
        acc := ⟨upd acc.c0 s2.ch0_level, upd acc.c1 s2.ch1_level,
                upd acc.c2 s2.ch2_level, upd acc.c3 s2.ch3_level⟩,
        endHit := la.2 }
    else
      let final_volume := calculate_slot_volume T s2
      let chvol := fun (lvl : Nat) =>
        let v := asr (final_volume * T.attenuation lvl) 16
        if v > 65536 then 65536 else v
      { slot := s2, acc := acc,
        mix := ⟨mix.c0 + asr (sample * chvol s2.ch0_level) 16,
                mix.c1 + asr (sample * chvol s2.ch1_level) 16,
                mix.c2 + asr (sample * chvol s2.ch2_level) 16,
                mix.c3 + asr (sample * chvol s2.ch3_level) 16⟩,
        endHit := la.2 }
  let s3 := if out.slot.loop_direction > 0 then
      { out.slot with stepptr := (out.slot.stepptr + out.slot.step) % 2 ^ 64 }
    else
      { out.slot with stepptr := (out.slot.stepptr + 2 ^ 64 - out.slot.step) % 2 ^ 64 }
  { out with slot := s3 }

/-- calculate_status_end: latch or clear the end-status bit of a slot;
only slots whose number is a multiple of 4 own a bit.  The UINT16
end_status is kept below 2 to the 16. -/
def calculate_status_end (c : Chip) (slotnum : Nat) (state : Bool) : Chip :=
  if slotnum % 4 ≠ 0 then c
  else
    let bit := slotnum / 12 + ((slotnum % 12) >>> 2) * 4
    if state then { c with end_status := c.end_status ||| (1 <<< bit) }
    else { c with end_status := c.end_status &&& (0xffff ^^^ (1 <<< bit)) }

/-- The per-slot register cases 0x1 to 0xE of write_register (all of them
only modify the addressed slot). -/
def write_register_slot (s : Slot) (reg data : Nat) : Slot :=
  if reg = 1 then { s with lfoFreq := data }
  else if reg = 2 then
    { s with lfowave := data &&& 3, pms := (data >>> 3) &&& 7,
             ams := (data >>> 6) &&& 3 }
  else if reg = 3 then
    { s with multiple := data &&& 0xf, detune := (data >>> 4) &&& 7 }
  else if reg = 4 then { s with tl := data &&& 0x7f }
  else if reg = 5 then
    { s with ar := data &&& 0x1f, keyscale := (data >>> 5) &&& 3 }
  else if reg = 6 then { s with decay1rate := data &&& 0x1f }
  else if reg = 7 then { s with decay2rate := data &&& 0x1f }
  else if reg = 8 then
    { s with relrate := data &&& 0xf, decay1lvl := (data >>> 4) &&& 0xf }
  else if reg = 9 then
    { s with fns := ((s.fns_hi <<< 8) &&& 0x0f00) ||| data,
             block := (s.fns_hi >>> 4) &&& 0xf }
  else if reg = 10 then { s with fns_hi := data }
  else if reg = 11 then
    { s with waveform := data &&& 7, feedback := (data >>> 4) &&& 7,
             accon := data &&& 0x80 ≠ 0 }
  else if reg = 12 then { s with algorithm := data &&& 0xf }
  else if reg = 13 then
    { s with ch0_level := data >>> 4, ch1_level := data &&& 0xf }
  else if reg = 14 then
    { s with ch2_level := data >>> 4, ch3_level := data &&& 0xf }
  else s

/-- The key-on initialisation that register 0x0 applies to the other
member slots of a synchronised group. -/
def keyon_sync_init (T : Tables) (s : Slot) : Slot :=
  let s := { s with step := 0, stepptr := 0, loop_direction := 1 }
  let s := init_envelope T s
  let s := init_lfo T s
  let s := calculate_step T s
  { s with feedback_modulation0 := 0, feedback_modulation1 := 0 }

/-- write_register: register 0x0 performs key-on (with the sync-mode
propagation to the other member slots of the group) or key-off; every
other register is a pure slot field update. -/
def write_register (T : Tables) (c : Chip) (slotnum reg data : Nat) : Chip :=
  if reg = 0 then
    let s := getSlot c slotnum
    let s := { s with ext_en := if data &&& 0x80 ≠ 0 then 1 else 0,
                      ext_out := (data >>> 3) &&& 0xf }
    if data &&& 1 ≠ 0 then
      let groupnum := slotnum % 12
      let bank := slotnum / 12
      let g := getGroup c groupnum
      let s := { s with step := 0, stepptr := 0, active := true,
                        loop_direction := 1 }
      let s := init_envelope T s
      let s := init_lfo T s
      let s := calculate_step T s
      let s := { s with feedback_modulation0 := 0, feedback_modulation1 := 0 }
      let c := setSlot c slotnum s
      let c := calculate_status_end c slotnum false
      if g.sync = 0 ∧ bank = 0 then
        let c := setSlot c (groupnum + 12) (keyon_sync_init T (getSlot c (groupnum + 12)))
        let c := setSlot c (groupnum + 24) (keyon_sync_init T (getSlot c (groupnum + 24)))
        setSlot c (groupnum + 36) (keyon_sync_init T (getSlot c (groupnum + 36)))
      else if g.sync = 1 ∧ bank = 0 then
        setSlot c (groupnum + 24) (keyon_sync_init T (getSlot c (groupnum + 24)))
      else if g.sync = 1 ∧ bank = 1 then
        setSlot c (groupnum + 36) (keyon_sync_init T (getSlot c (groupnum + 36)))
      else if g.sync = 2 ∧ bank = 0 then
        let c := setSlot c (groupnum + 12) (keyon_sync_init T (getSlot c (groupnum + 12)))
        setSlot c (groupnum + 24) (keyon_sync_init T (getSlot c (groupnum + 24)))
      else c
    else
      let s := if s.active then { s with env_state := 3 } else s
      setSlot c slotnum s
  else setSlot c slotnum (write_register_slot (getSlot c slotnum) reg data)

/-- ymf271_write_fm: decode the group from the low address nibble and the
register from the high nibble; a register in the synchronised set written
to the key-on bank of a group in sync mode 0, 1 or 2 is broadcast to the
participating member slots, any other write goes to the addressed slot
only. -/
def ymf271_write_fm (T : Tables) (c : Chip) (bank address data : Nat) : Chip :=
  let g := fm_tab.getD (address &&& 0xf) 0
  if g < 0 then c
  else
    let groupnum := g.toNat
    let reg := (address >>> 4) &&& 0xf
    let sync_reg := reg = 0 ∨ reg = 9 ∨ reg = 10 ∨ reg = 12 ∨ reg = 13 ∨ reg = 14
    let sync := (getGroup c groupnum).sync
    let sync_mode := (sync = 0 ∧ bank = 0) ∨ (sync = 1 ∧ (bank = 0 ∨ bank = 1)) ∨
      (sync = 2 ∧ bank = 0)
    if sync_mode ∧ sync_reg then
      if sync = 0 then
        let c := write_register T c groupnum reg data
        let c := write_register T c (12 + groupnum) reg data
        let c := write_register T c (24 + groupnum) reg data
        write_register T c (36 + groupnum) reg data
      else if sync = 1 then
        if bank = 0 then
          let c := write_register T c groupnum reg data
          write_register T c (24 + groupnum) reg data
        else
          let c := write_register T c (12 + groupnum) reg data
          write_register T c (36 + groupnum) reg data
      else
        let c := write_register T c groupnum reg data
        let c := write_register T c (12 + groupnum) reg data
        write_register T c (24 + groupnum) reg data
    else write_register T c (12 * bank + groupnum) reg data

/-- ymf271_write_timer: group control writes (sync and pfm) for addresses
with a zero high nibble, the two timer value registers, the enable and
reset register 0x13 (whose reset bits clear the status and IRQ-state bits
and may call the IRQ handler with argument 0), and the external-memory
address registers.  The returned list holds the arguments of the IRQ
handler calls (empty when the handler is null); the external write
handler of address 0x17 is never installed by this core, so only the
address increment is modelled. -/
def ymf271_write_timer (c : Chip) (address data : Nat) :
    Chip × List Nat :=
  if address &&& 0xf0 = 0 then
    let g := fm_tab.getD (address &&& 0xf) 0
    if g < 0 then (c, [])
    else
      let grp := getGroup c g.toNat
      (setGroup c g.toNat { grp with sync := data &&& 3, pfm := data >>> 7 }, [])
  else if address = 0x10 then
    ({ c with timerA := (c.timerA &&& 0x003) ||| (data <<< 2) }, [])
  else if address = 0x11 then
    ({ c with timerA := (c.timerA &&& 0x3fc) ||| (data &&& 0x03) }, [])
  else if address = 0x12 then
    ({ c with timerB := data }, [])
  else if address = 0x13 then
    let p1 :=
      if data &&& 0x10 ≠ 0 then
        let c1 : Chip := { c with irqstate := c.irqstate &&& 0xfe,
                                  status := c.status &&& 0xfe }
        (c1, if c.hasIrqHandler ∧ c1.irqstate &&& 2 = 0 then [0] else [])
      else (c, ([] : List Nat))
    let c1 := p1.1
    let p2 :=
      if data &&& 0x20 ≠ 0 then
        let c2 : Chip := { c1 with irqstate := c1.irqstate &&& 0xfd,
                                   status := c1.status &&& 0xfd }
        (c2, if c1.hasIrqHandler ∧ c2.irqstate &&& 1 = 0 then [0] else [])
      else (c1, ([] : List Nat))
    ({ p2.1 with enable := data }, p1.2 ++ p2.2)
  else if address = 0x14 then
    ({ c with ext_address := (c.ext_address &&& 0xffffff00) ||| data }, [])
  else if address = 0x15 then
    ({ c with ext_address := (c.ext_address &&& 0xffff00ff) ||| (data <<< 8) }, [])
  else if address = 0x16 then
    ({ c with ext_address := (c.ext_address &&& 0xff00ffff) ||| ((data &&& 0x7f) <<< 16),
              ext_rw := if data &&& 0x80 ≠ 0 then 1 else 0 }, [])
  else if address = 0x17 then
    ({ c with ext_address := (c.ext_address + 1) &&& 0x7fffff }, [])
  else (c, [])

/-- ymf271_timer_a_tick: set status bit 0 and, when enable bit 2 is set,
latch IRQ state bit 0 and call the IRQ handler with argument 1 (when a
handler is installed). -/
def ymf271_timer_a_tick (c : Chip) : Chip × List Nat :=
  let c := { c with status := c.status ||| 1 }
  if c.enable &&& 4 ≠ 0 then
    ({ c with irqstate := c.irqstate ||| 1 },
     if c.hasIrqHandler then [1] else [])
  else (c, [])

/-- ymf271_timer_b_tick: set status bit 1 and, when enable bit 3 is set,
latch IRQ state bit 1 and call the IRQ handler with argument 1 (when a
handler is installed). -/
def ymf271_timer_b_tick (c : Chip) : Chip × List Nat :=
  let c := { c with status := c.status ||| 2 }
  if c.enable &&& 8 ≠ 0 then
    ({ c with irqstate := c.irqstate ||| 2 },
     if c.hasIrqHandler then [1] else [])
  else (c, [])

/-- ymf271_r: the status registers at ports 0 and 1, and the external
memory read latch at port 2 (0xFF when ext_rw is clear; otherwise the
previous latch is returned, the external address post-incremented modulo
2 to the 23 and the latch refilled from the incremented address). -/
def ymf271_r (c : Chip) (offset : Nat) : Nat × Chip :=
  let port := offset &&& 0xf
  if port = 0 then
    ((c.busy_flag <<< 7) ||| c.status ||| ((c.end_status &&& 0xf) <<< 3), c)
  else if port = 1 then
    ((c.end_status >>> 4) &&& 0xff, c)
  else if port = 2 then
    if c.ext_rw = 0 then (0xff, c)
    else
      let addr := (c.ext_address + 1) &&& 0x7fffff
      (c.ext_readlatch,
       { c with ext_address := addr,
                ext_readlatch := ymf271_read_memory c.mem addr })
  else (0xff, c)

/-- device_reset_ymf271: deactivate every slot, clear every slot volume
and clear the status, IRQ-state, end-status, enable and busy flags; the
IRQ handler, when installed, is called with argument 0. -/
def device_reset_ymf271 (c : Chip) : Chip × List Nat :=
  ({ c with slots := c.slots.map (fun s => { s with active := false, volume := 0 }),
            irqstate := 0, status := 0, end_status := 0, enable := 0,
            busy_flag := 0 },
   if c.hasIrqHandler then [0] else [])

/-- A concrete table instance used to evaluate closed runs.  Every entry
that the closed theorems below actually consult agrees with the value the
IEEE double computation of init_tables provably produces:
- attenuation 0 = 65536, from (int)(65536.0 / pow(10.0, 0.0 / 20.0)), an
  exact IEEE computation;
- plfo wave 0 idx = 1, from pow(2.0, 0.0 * x / 1200.0) = pow(2.0, 0.0),
  exact in IEEE arithmetic (the closed runs only use pms = 0);
- detune is never consulted (the closed runs use waveform 7, whose step
  formula does not read the detune table);
- lfo, ar, dc, total_level and env_volume are never consulted by the
  closed runs (no key-on is performed with these tables and the acc path
  does not call calculate_slot_volume). -/
def tablesW : Tables :=
  { plfo := fun _ _ _ => 1
    lfo := fun _ => 1
    ar := fun _ => 1
    dc := fun _ => 1
    attenuation := fun i => if i = 0 then 65536 else 1
    total_level := fun i => if i = 0 then 65536 else 1
    env_volume := fun _ => 1
    detune := fun _ _ => 0 }

/-- PCM slot used by the counterexample to claim C1: 8-bit PCM, accon set,
tl = 8, all channel levels 0, pitch fields chosen so that the double step
computation is exact (powers of two only). -/
def slotC1 : Slot :=
  { slot0 with accon := true, tl := 8, waveform := 7, bits := 8,
               active := true, endaddr := 100, block := 8, fs := 3,
               multiple := 0 }

/-- PCM slot used by the counterexample to claim C4: like slotC1 but with
tl = 0 and an envelope one release step away from termination. -/
def slotC4 : Slot :=
  { slot0 with accon := true, tl := 0, waveform := 7, bits := 8,
               active := true, endaddr := 100, block := 8, fs := 3,
               multiple := 0, env_state := 3, volume := 1,
               env_release_step := 2 }

/-- A freshly started chip: 48 default slots, 12 default groups, no ROM,
no IRQ handler. -/
def chip0 : Chip :=
  { slots := List.replicate 48 slot0, groups := List.replicate 12 group0,
    timerA := 0, timerB := 0, irqstate := 0, status := 0, end_status := 0,
    enable := 0, ext_address := 0, ext_rw := 0, ext_readlatch := 0,
    busy_flag := 0, mem := [], hasIrqHandler := false }

/-- A chip with the external-memory read path armed, used by the witness
of claim C9. -/
def chipC9 : Chip :=
  { chip0 with ext_rw := 1, ext_readlatch := 0x55, mem := [1, 2, 3] }

/-- A chip with Timer A IRQ enabled (enable bit 2) and an installed IRQ
handler, used by the witness of claim C3. -/
def chipC3 : Chip := { chip0 with enable := 4, hasIrqHandler := true }

/-- A chip with no IRQ handler installed, used by the witness of claim
C3 for the null-callback part. -/
def chipC3n : Chip := { chip0 with enable := 12, hasIrqHandler := false }

/-- The chip state reached from chip0 by the write sequence of the
counterexample to claim C2: set group 0 to sync mode 3, write register
0xA (fns_hi) of bank 0 with 0x01 and of bank 1 with 0x02 (sync 3 writes
are not broadcast), set group 0 back to sync mode 0, then write register
0x9 with 0x00 to the key-on slot (bank 0), which is broadcast to all four
member slots. -/
def chipC2 : Chip :=
  ymf271_write_fm tablesW
    ((ymf271_write_timer
        (ymf271_write_fm tablesW
          (ymf271_write_fm tablesW ((ymf271_write_timer chip0 0x00 0x03).1)
            0 0xA0 0x01)
          1 0xA0 0x02)
        0x00 0x00).1)
    0 0x90 0x00

/-- The written-field projection of the six synchronised FM registers:
register 0x0 owns ext_en and ext_out, 0x9 owns fns and block, 0xA owns
fns_hi, 0xC owns algorithm, 0xD owns ch0_level and ch1_level, 0xE owns
ch2_level and ch3_level. -/
def sync_field (reg : Nat) (s : Slot) : Nat × Nat :=
  if reg = 0 then (s.ext_en, s.ext_out)
  else if reg = 9 then (s.fns, s.block)
  else if reg = 10 then (s.fns_hi, 0)
  else if reg = 12 then (s.algorithm, 0)
  else if reg = 13 then (s.ch0_level, s.ch1_level)
  else if reg = 14 then (s.ch2_level, s.ch3_level)
  else (0, 0)

/-- The address port index that selects FM group g (the inverse image of
fm_tab): groups 0,1,2 map to nibbles 0,1,2, groups 3,4,5 to 4,5,6, and so
on. -/
def fm_addr (g : Nat) : Nat := g + g / 3

/-! Helper lemmas about list reads and writes, used to reason about the
fixed-size slot array through its list embedding. -/

theorem list_getD_set_self {α : Type} (l : List α) (i : Nat) (a d : α)
    (h : i < l.length) : (l.set i a).getD i d = a := by
  induction l generalizing i with
  | nil => simp at h
  | cons x xs ih =>
    cases i with
    | zero => rfl
    | succ n => exact ih n (by simpa using h)

theorem list_getD_set_ne {α : Type} (l : List α) (i j : Nat) (a d : α)
    (h : i ≠ j) : (l.set i a).getD j d = l.getD j d := by
  induction l generalizing i j with
  | nil => rfl
  | cons x xs ih =>
    cases i with
    | zero =>
      cases j with
      | zero => exact absurd rfl h
      | succ m => rfl
    | succ n =>
      cases j with
      | zero => rfl
      | succ m => exact ih n m (fun hh => h (by omega))

theorem getSlot_setSlot_self (c : Chip) (i : Nat) (s : Slot)
    (h : i < c.slots.length) : getSlot (setSlot c i s) i = s :=
  list_getD_set_self c.slots i s slot0 h

theorem getSlot_setSlot_ne (c : Chip) (i j : Nat) (s : Slot)
    (h : i ≠ j) : getSlot (setSlot c i s) j = getSlot c j :=
  list_getD_set_ne c.slots i j s slot0 h

theorem length_setSlot (c : Chip) (i : Nat) (s : Slot) :
    (setSlot c i s).slots.length = c.slots.length := by
  simp [setSlot]

theorem getGroup_setSlot (c : Chip) (i : Nat) (s : Slot) (g : Nat) :
    getGroup (setSlot c i s) g = getGroup c g := rfl

/-! Field-preservation lemmas: the envelope, LFO and step routines leave
the register fields they do not own untouched. -/

@[simp] theorem calculate_step_accon (T : Tables) (s : Slot) :
    (calculate_step T s).accon = s.accon := by
  unfold calculate_step; split <;> rfl

@[simp] theorem calculate_step_tl (T : Tables) (s : Slot) :
    (calculate_step T s).tl = s.tl := by
  unfold calculate_step; split <;> rfl

@[simp] theorem calculate_step_ch0 (T : Tables) (s : Slot) :
    (calculate_step T s).ch0_level = s.ch0_level := by
  unfold calculate_step; split <;> rfl

@[simp] theorem calculate_step_ch1 (T : Tables) (s : Slot) :
    (calculate_step T s).ch1_level = s.ch1_level := by
  unfold calculate_step; split <;> rfl

@[simp] theorem calculate_step_ch2 (T : Tables) (s : Slot) :
    (calculate_step T s).ch2_level = s.ch2_level := by
  unfold calculate_step; split <;> rfl

@[simp] theorem calculate_step_ch3 (T : Tables) (s : Slot) :
    (calculate_step T s).ch3_level = s.ch3_level := by
  unfold calculate_step; split <;> rfl

@[simp] theorem calculate_step_ext_en (T : Tables) (s : Slot) :
    (calculate_step T s).ext_en = s.ext_en := by
  unfold calculate_step; split <;> rfl

@[simp] theorem calculate_step_ext_out (T : Tables) (s : Slot) :
    (calculate_step T s).ext_out = s.ext_out := by
  unfold calculate_step; split <;> rfl

@[simp] theorem update_lfo_accon (T : Tables) (s : Slot) :
    (update_lfo T s).accon = s.accon := by
  simp [update_lfo]

@[simp] theorem update_lfo_tl (T : Tables) (s : Slot) :
    (update_lfo T s).tl = s.tl := by
  simp [update_lfo]

@[simp] theorem update_lfo_ch0 (T : Tables) (s : Slot) :
    (update_lfo T s).ch0_level = s.ch0_level := by
  simp [update_lfo]

@[simp] theorem update_lfo_ch1 (T : Tables) (s : Slot) :
    (update_lfo T s).ch1_level = s.ch1_level := by
  simp [update_lfo]

@[simp] theorem update_lfo_ch2 (T : Tables) (s : Slot) :
    (update_lfo T s).ch2_level = s.ch2_level := by
  simp [update_lfo]

@[simp] theorem update_lfo_ch3 (T : Tables) (s : Slot) :
    (update_lfo T s).ch3_level = s.ch3_level := by
  simp [update_lfo]

@[simp] theorem update_envelope_accon (s : Slot) :
    (update_envelope s).accon = s.accon := by
  simp only [update_envelope, check_envelope_end]
  split_ifs <;> rfl

@[simp] theorem update_envelope_tl (s : Slot) :
    (update_envelope s).tl = s.tl := by
  simp only [update_envelope, check_envelope_end]
  split_ifs <;> rfl

@[simp] theorem update_envelope_ch0 (s : Slot) :
    (update_envelope s).ch0_level = s.ch0_level := by
  simp only [update_envelope, check_envelope_end]
  split_ifs <;> rfl

@[simp] theorem update_envelope_ch1 (s : Slot) :
    (update_envelope s).ch1_level = s.ch1_level := by
  simp only [update_envelope, check_envelope_end]
  split_ifs <;> rfl

@[simp] theorem update_envelope_ch2 (s : Slot) :
    (update_envelope s).ch2_level = s.ch2_level := by
  simp only [update_envelope, check_envelope_end]
  split_ifs <;> rfl

@[simp] theorem update_envelope_ch3 (s : Slot) :
    (update_envelope s).ch3_level = s.ch3_level := by
  simp only [update_envelope, check_envelope_end]
  split_ifs <;> rfl

@[simp] theorem pcm_loop_advance_accon (s : Slot) :
    (pcm_loop_advance s).1.accon = s.accon := by
  simp only [pcm_loop_advance]
  split_ifs <;> rfl

@[simp] theorem pcm_loop_advance_tl (s : Slot) :
    (pcm_loop_advance s).1.tl = s.tl := by
  simp only [pcm_loop_advance]
  split_ifs <;> rfl

@[simp] theorem pcm_loop_advance_ch0 (s : Slot) :
    (pcm_loop_advance s).1.ch0_level = s.ch0_level := by
  simp only [pcm_loop_advance]
  split_ifs <;> rfl

@[simp] theorem pcm_loop_advance_ch1 (s : Slot) :
    (pcm_loop_advance s).1.ch1_level = s.ch1_level := by
  simp only [pcm_loop_advance]
  split_ifs <;> rfl

@[simp] theorem pcm_loop_advance_ch2 (s : Slot) :
    (pcm_loop_advance s).1.ch2_level = s.ch2_level := by
  simp only [pcm_loop_advance]
  split_ifs <;> rfl

@[simp] theorem pcm_loop_advance_ch3 (s : Slot) :
    (pcm_loop_advance s).1.ch3_level = s.ch3_level := by
  simp only [pcm_loop_advance]
  split_ifs <;> rfl

@[simp] theorem init_envelope_ext_en (T : Tables) (s : Slot) :
    (init_envelope T s).ext_en = s.ext_en := rfl

@[simp] theorem init_envelope_ext_out (T : Tables) (s : Slot) :
    (init_envelope T s).ext_out = s.ext_out := rfl

@[simp] theorem init_lfo_ext_en (T : Tables) (s : Slot) :
    (init_lfo T s).ext_en = s.ext_en := rfl

@[simp] theorem init_lfo_ext_out (T : Tables) (s : Slot) :
    (init_lfo T s).ext_out = s.ext_out := rfl

@[simp] theorem keyon_sync_init_ext_en (T : Tables) (s : Slot) :
    (keyon_sync_init T s).ext_en = s.ext_en := by
  simp [keyon_sync_init]

@[simp] theorem keyon_sync_init_ext_out (T : Tables) (s : Slot) :
    (keyon_sync_init T s).ext_out = s.ext_out := by
  simp [keyon_sync_init]

/-! Small bit-arithmetic helpers for the status and IRQ registers. -/

theorem or_pow_and_pow (s i : Nat) : (s ||| 2 ^ i) &&& 2 ^ i = 2 ^ i := by
  rw [Nat.and_two_pow]
  simp [Nat.testBit_or, Nat.testBit_two_pow_self]

theorem and_mask_and_pow (s m i : Nat) (h : m.testBit i = false) :
    (s &&& m) &&& 2 ^ i = 0 := by
  rw [Nat.and_assoc, Nat.and_two_pow, h]
  simp

theorem list_getD_map {α β : Type} (f : α → β) (l : List α) (i : Nat)
    (d : β) (d' : α) (h : i < l.length) :
    (l.map f).getD i d = f (l.getD i d') := by
  induction l generalizing i with
  | nil => simp at h
  | cons x xs ih =>
    cases i with
    | zero => rfl
    | succ n => exact ih n (by simpa using h)

/-- Claim C5 (the code contradicts the specification and its own comment):
every entry init_tables writes into waveform table 6 is (INT16)(1 * MAXOUT)
with MAXOUT = +32768, and the conversion of +32768 to a signed 16-bit
value wraps to -32768 in two's complement, so no entry equals the +32768
the specification states. -/
theorem C5_wave6_entry (i : Nat) :
    lut_waves6 i = -32768 ∧ lut_waves6 i ≠ 32768 := by
  unfold lut_waves6
  exact ⟨by decide, by decide⟩

/-- Claim C7: after device_reset_ymf271, every slot of the 48-slot array
is inactive with volume 0, and the status flags, IRQ state, end-flag
bitmap, enable mask and busy flag are all cleared. -/
theorem C7_reset (c : Chip) (i : Nat) (hi : i < c.slots.length) :
    (getSlot (device_reset_ymf271 c).1 i).active = false ∧
    (getSlot (device_reset_ymf271 c).1 i).volume = 0 ∧
    (device_reset_ymf271 c).1.status = 0 ∧
    (device_reset_ymf271 c).1.irqstate = 0 ∧
    (device_reset_ymf271 c).1.end_status = 0 ∧
    (device_reset_ymf271 c).1.enable = 0 ∧
    (device_reset_ymf271 c).1.busy_flag = 0 := by
  unfold device_reset_ymf271 getSlot
  refine ⟨?_, ?_, rfl, rfl, rfl, rfl, rfl⟩ <;>
    rw [list_getD_map _ _ _ _ slot0 hi]

/-- Witness for C7_reset at a freshly started chip and slot 0. -/
theorem C7_reset_witness :
    0 < chip0.slots.length ∧
    ((getSlot (device_reset_ymf271 chip0).1 0).active = false ∧
     (getSlot (device_reset_ymf271 chip0).1 0).volume = 0 ∧
     (device_reset_ymf271 chip0).1.status = 0 ∧
     (device_reset_ymf271 chip0).1.irqstate = 0 ∧
     (device_reset_ymf271 chip0).1.end_status = 0 ∧
     (device_reset_ymf271 chip0).1.enable = 0 ∧
     (device_reset_ymf271 chip0).1.busy_flag = 0) :=
  ⟨by simp [chip0], C7_reset chip0 0 (by simp [chip0])⟩

/-- Claim C9: a read of port 2 returns 0xFF (and leaves the chip
unchanged) whenever ext_rw is 0; when ext_rw is nonzero it returns the
previous read latch, post-increments ext_address modulo 2 to the 23, and
refills the latch from memory at the incremented address. -/
theorem C9_read_port2 (c : Chip) :
    (c.ext_rw = 0 → ymf271_r c 2 = (0xff, c)) ∧
    (c.ext_rw ≠ 0 →
      (ymf271_r c 2).1 = c.ext_readlatch ∧
      (ymf271_r c 2).2.ext_address = (c.ext_address + 1) % 2 ^ 23 ∧
      (ymf271_r c 2).2.ext_readlatch =
        ymf271_read_memory c.mem ((c.ext_address + 1) % 2 ^ 23)) := by
  have hmask : ∀ x : Nat, x &&& 0x7fffff = x % 2 ^ 23 := fun x =>
    Nat.and_pow_two_sub_one_eq_mod x 23
  have hport : (2 : Nat) &&& 15 = 2 := by decide
  unfold ymf271_r
  rw [hport]
  constructor
  · intro h
    simp [h]
  · intro h
    simp [h, hmask]

/-- Witness for C9_read_port2 at two concrete chip states, one with
ext_rw clear and one with ext_rw set. -/
theorem C9_read_port2_witness :
    (chip0.ext_rw = 0 → ymf271_r chip0 2 = (0xff, chip0)) ∧
    (chipC9.ext_rw ≠ 0 → (ymf271_r chipC9 2).1 = chipC9.ext_readlatch) :=
  ⟨fun h => (C9_read_port2 chip0).1 h,
   fun h => ((C9_read_port2 chipC9).2 h).1⟩

/-- Claim C6: every PCM ROM fetch goes through ymf271_read_memory, which
masks its offset to 23 bits; a masked offset at or beyond the ROM size
yields 0 without reading the ROM array, and an in-range masked offset
reads exactly that ROM byte.  The last conjunct exhibits that the 8-bit
PCM fetch of update_pcm is such a call for every value of stepptr,
startaddr, endaddr and loopaddr (the 12-bit fetch reads through the same
function, as is visible from the definition of pcm_fetch). -/
theorem C6_pcm_bounds (mem : List Nat) (off : Nat) :
    (ymf271_read_memory mem off = ymf271_read_memory mem (off % 2 ^ 23)) ∧
    (mem.length ≤ off % 2 ^ 23 → ymf271_read_memory mem off = 0) ∧
    (∀ h : off % 2 ^ 23 < mem.length,
        ymf271_read_memory mem off = mem.get ⟨off % 2 ^ 23, h⟩) ∧
    (∀ s : Slot, s.bits = 8 →
        pcm_fetch mem s = toInt16 ((ymf271_read_memory mem
          ((s.startaddr + (s.stepptr >>> 16)) % 2 ^ 32)) <<< 8)) := by
  have hmask : ∀ x : Nat, x &&& 0x7fffff = x % 2 ^ 23 := fun x =>
    Nat.and_pow_two_sub_one_eq_mod x 23
  have hmm : off % 2 ^ 23 % 2 ^ 23 = off % 2 ^ 23 :=
    Nat.mod_mod_of_dvd off dvd_rfl
  refine ⟨?_, ?_, ?_, ?_⟩
  · unfold ymf271_read_memory
    simp only [hmask, hmm]
  · intro h
    unfold ymf271_read_memory
    simp only [hmask]
    rw [dif_neg (by omega)]
  · intro h
    unfold ymf271_read_memory
    simp only [hmask]
    rw [dif_pos h]
  · intro s hb
    unfold pcm_fetch
    rw [if_pos hb]

/-- Witness for C6_pcm_bounds: a one-byte ROM read at masked offset 5
returns 0, and the 8-bit fetch equality at a concrete slot. -/
theorem C6_pcm_bounds_witness :
    (([7] : List Nat).length ≤ 5 % 2 ^ 23) ∧
    ymf271_read_memory [7] 5 = 0 ∧
    (slotC1.bits = 8 ∧
      pcm_fetch [7] slotC1 = toInt16 ((ymf271_read_memory [7]
        ((slotC1.startaddr + (slotC1.stepptr >>> 16)) % 2 ^ 32)) <<< 8)) :=
  ⟨by decide, (C6_pcm_bounds [7] 5).2.1 (by decide),
   rfl, (C6_pcm_bounds [7] 5).2.2.2 slotC1 rfl⟩

/-- Claim C10: an FM register 0x0 write with bit 0 clear (key-off) writes
back the addressed slot with only ext_en and ext_out replaced, and with
env_state set to release (3) exactly when the slot is currently active;
the record-update form of the right-hand side exhibits that every other
slot field (step, stepptr, volume, active, pitch registers, PCM
addresses, feedback memory, ...) and every other slot are unchanged. -/
theorem C10_keyoff_write (T : Tables) (c : Chip) (i data : Nat)
    (hk : data &&& 1 = 0) :
    write_register T c i 0 data =
      setSlot c i
        (let s := getSlot c i
         let s' := { s with ext_en := if data &&& 0x80 ≠ 0 then 1 else 0,
                            ext_out := (data >>> 3) &&& 0xf }
         if s.active then { s' with env_state := 3 } else s') := by
  have hk' : ¬(data &&& 1 ≠ 0) := by omega
  unfold write_register
  rw [if_pos rfl, if_neg hk']

/-- Witness for C10_keyoff_write: key-off write with data 0x88 (ext_en
bit and ext_out bits set, key bit clear) to slot 0 of a freshly started
chip. -/
theorem C10_keyoff_write_witness :
    (0x88 : Nat) &&& 1 = 0 ∧
    write_register tablesW chip0 0 0 0x88 =
      setSlot chip0 0
        (let s := getSlot chip0 0
         let s' := { s with ext_en := if (0x88 : Nat) &&& 0x80 ≠ 0 then 1 else 0,
                            ext_out := ((0x88 : Nat) >>> 3) &&& 0xf }
         if s.active then { s' with env_state := 3 } else s') :=
  ⟨by decide, C10_keyoff_write tablesW chip0 0 0x88 (by decide)⟩

theorem or_one_and_one (s : Nat) : (s ||| 1) &&& 1 = 1 := by
  have h := or_pow_and_pow s 0
  rwa [pow_zero] at h

theorem or_two_and_two (s : Nat) : (s ||| 2) &&& 2 = 2 := by
  have h := or_pow_and_pow s 1
  rwa [pow_one] at h

theorem and_mask_one (s m : Nat) (h : m &&& 1 = 0) : (s &&& m) &&& 1 = 0 := by
  rw [Nat.and_assoc, h, Nat.and_zero]

theorem and_mask_two (s m : Nat) (h : m &&& 2 = 0) : (s &&& m) &&& 2 = 0 := by
  rw [Nat.and_assoc, h, Nat.and_zero]

/-- Claim C3: when Timer A (resp. B) expires with its enable bit (0x13
bit 2, resp. bit 3) set, status bit 0 (resp. 1) and the matching IRQ
state bit are set and the IRQ callback is invoked with argument 1; with a
null callback the status bit is still set and no call is made; a write to
register 0x13 with bit 4 (resp. bit 5) set clears that status bit and the
IRQ state bit, and (when a callback is installed and the other timer IRQ
is not pending) deasserts the IRQ by calling the callback with
argument 0. -/
theorem C3_timer_irq (c : Chip) (data : Nat) :
    (c.enable &&& 4 ≠ 0 →
       (ymf271_timer_a_tick c).1.status &&& 1 = 1 ∧
       (ymf271_timer_a_tick c).1.irqstate &&& 1 = 1 ∧
       (c.hasIrqHandler = true → (ymf271_timer_a_tick c).2 = [1])) ∧
    (c.hasIrqHandler = false →
       (ymf271_timer_a_tick c).1.status &&& 1 = 1 ∧
       (ymf271_timer_a_tick c).2 = []) ∧
    (c.enable &&& 8 ≠ 0 →
       (ymf271_timer_b_tick c).1.status &&& 2 = 2 ∧
       (ymf271_timer_b_tick c).1.irqstate &&& 2 = 2 ∧
       (c.hasIrqHandler = true → (ymf271_timer_b_tick c).2 = [1])) ∧
    (c.hasIrqHandler = false →
       (ymf271_timer_b_tick c).1.status &&& 2 = 2 ∧
       (ymf271_timer_b_tick c).2 = []) ∧
    (data &&& 0x10 ≠ 0 →
       (ymf271_write_timer c 0x13 data).1.status &&& 1 = 0 ∧
       (ymf271_write_timer c 0x13 data).1.irqstate &&& 1 = 0 ∧
       (c.hasIrqHandler = true → c.irqstate &&& 2 = 0 →
          0 ∈ (ymf271_write_timer c 0x13 data).2)) ∧
    (data &&& 0x20 ≠ 0 →
       (ymf271_write_timer c 0x13 data).1.status &&& 2 = 0 ∧
       (ymf271_write_timer c 0x13 data).1.irqstate &&& 2 = 0) := by
  have hfe1 : ∀ s : Nat, (s &&& 0xfe) &&& 1 = 0 :=
    fun s => and_mask_one s 0xfe (by decide)
  have hfd2 : ∀ s : Nat, (s &&& 0xfd) &&& 2 = 0 :=
    fun s => and_mask_two s 0xfd (by decide)
  have hfefd1 : ∀ s : Nat, ((s &&& 0xfe) &&& 0xfd) &&& 1 = 0 := by
    intro s
    rw [Nat.and_assoc s]
    exact and_mask_one s (0xfe &&& 0xfd) (by decide)
  have hfe2 : ∀ s : Nat, (s &&& 0xfe) &&& 2 = s &&& 2 := by
    intro s
    rw [Nat.and_assoc, (by decide : (0xfe &&& 2 : Nat) = 2)]
  have e1 : ¬((0x13 : Nat) &&& 0xf0 = 0) := by decide
  have e2 : ¬((0x13 : Nat) = 0x10) := by decide
  have e3 : ¬((0x13 : Nat) = 0x11) := by decide
  have e4 : ¬((0x13 : Nat) = 0x12) := by decide
  have e5 : ((0x13 : Nat) = 0x13) := rfl
  refine ⟨?_, ?_, ?_, ?_, ?_, ?_⟩
  · intro h
    unfold ymf271_timer_a_tick
    rw [if_pos h]
    exact ⟨or_one_and_one _, or_one_and_one _, fun hh => by simp [hh]⟩
  · intro hh
    unfold ymf271_timer_a_tick
    by_cases h : c.enable &&& 4 ≠ 0 <;>
      simp [h, hh, or_one_and_one]
  · intro h
    unfold ymf271_timer_b_tick
    rw [if_pos h]
    exact ⟨or_two_and_two _, or_two_and_two _, fun hh => by simp [hh]⟩
  · intro hh
    unfold ymf271_timer_b_tick
    by_cases h : c.enable &&& 8 ≠ 0 <;>
      simp [h, hh, or_two_and_two]
  · intro h4
    by_cases h5 : data &&& 0x20 ≠ 0
    · simp only [ymf271_write_timer, if_neg e1, if_neg e2, if_neg e3,
        if_neg e4, if_pos e5, if_pos h4, if_pos h5]
      refine ⟨hfefd1 _, hfefd1 _, ?_⟩
      intro hirq hpend
      have hp : (c.irqstate &&& 0xfe) &&& 2 = 0 := by rw [hfe2, hpend]
      simp [hirq, hp]
    · simp only [ymf271_write_timer, if_neg e1, if_neg e2, if_neg e3,
        if_neg e4, if_pos e5, if_pos h4, if_neg h5]
      refine ⟨hfe1 _, hfe1 _, ?_⟩
      intro hirq hpend
      have hp : (c.irqstate &&& 0xfe) &&& 2 = 0 := by rw [hfe2, hpend]
      simp [hirq, hp]
  · intro h5
    by_cases h4 : data &&& 0x10 ≠ 0
    · simp only [ymf271_write_timer, if_neg e1, if_neg e2, if_neg e3,
        if_neg e4, if_pos e5, if_pos h4, if_pos h5]
      exact ⟨hfd2 _, hfd2 _⟩
    · simp only [ymf271_write_timer, if_neg e1, if_neg e2, if_neg e3,
        if_neg e4, if_pos e5, if_neg h4, if_pos h5]
      exact ⟨hfd2 _, hfd2 _⟩

/-- Witness for C3_timer_irq: a chip with Timer A enable bit set and an
installed callback, ticked and then reset via register 0x13 bit 4; and
the null-callback case on a second chip. -/
theorem C3_timer_irq_witness :
    (chipC3.enable &&& 4 ≠ 0 ∧
      (ymf271_timer_a_tick chipC3).1.status &&& 1 = 1 ∧
      (ymf271_timer_a_tick chipC3).1.irqstate &&& 1 = 1 ∧
      (chipC3.hasIrqHandler = true → (ymf271_timer_a_tick chipC3).2 = [1])) ∧
    ((0x10 : Nat) &&& 0x10 ≠ 0 ∧
      (ymf271_write_timer chipC3 0x13 0x10).1.status &&& 1 = 0 ∧
      (ymf271_write_timer chipC3 0x13 0x10).1.irqstate &&& 1 = 0 ∧
      (chipC3.hasIrqHandler = true → chipC3.irqstate &&& 2 = 0 →
         0 ∈ (ymf271_write_timer chipC3 0x13 0x10).2)) ∧
    (chipC3n.hasIrqHandler = false ∧
      (ymf271_timer_a_tick chipC3n).1.status &&& 1 = 1 ∧
      (ymf271_timer_a_tick chipC3n).2 = []) :=
  ⟨⟨by decide, (C3_timer_irq chipC3 0x10).1 (by decide)⟩,
   ⟨by decide, (C3_timer_irq chipC3 0x10).2.2.2.2.1 (by decide)⟩,
   ⟨by decide, (C3_timer_irq chipC3n 0).2.1 (by decide)⟩⟩

theorem rat_floor_nonneg (q : ℚ) (h : 0 ≤ q) : 0 ≤ Rat.floor q :=
  Rat.le_floor.mpr (by exact_mod_cast h)

/-- Claim C8: under the invariants established at key-on and preserved by
every update (volume between 0 and the attack cap 255 shifted left 16,
nonnegative per-stage steps), update_envelope is non-decreasing in the
attack stage, non-increasing in the decay1, decay2 and release stages,
and keeps volume between 0 and the cap; and init_envelope, which computes
the per-stage steps at key-on, yields nonnegative steps whenever the rate
tables are positive at rates 4 and above, which holds of the tables
init_tables builds from the positive ARTime and DCTime entries. -/
theorem C8_envelope_monotonic (s : Slot)
    (hv0 : 0 ≤ s.volume) (hv1 : s.volume ≤ 255 * 65536)
    (ha : 0 ≤ s.env_attack_step) (hd1 : 0 ≤ s.env_decay1_step)
    (hd2 : 0 ≤ s.env_decay2_step) (hr : 0 ≤ s.env_release_step) :
    ((s.env_state = 0 → s.volume ≤ (update_envelope s).volume) ∧
     ((s.env_state = 1 ∨ s.env_state = 2 ∨ s.env_state = 3) →
        (update_envelope s).volume ≤ s.volume) ∧
     0 ≤ (update_envelope s).volume ∧
     (update_envelope s).volume ≤ 255 * 65536) ∧
    (∀ T : Tables,
      (∀ r : Nat, 4 ≤ r → 0 < T.ar r) → (∀ r : Nat, 4 ≤ r → 0 < T.dc r) →
      0 ≤ (init_envelope T s).env_attack_step ∧
      0 ≤ (init_envelope T s).env_decay1_step ∧
      0 ≤ (init_envelope T s).env_decay2_step ∧
      0 ≤ (init_envelope T s).env_release_step) := by
  constructor
  · refine ⟨?_, ?_, ?_, ?_⟩
    · intro h0
      simp only [update_envelope, check_envelope_end, h0]
      split_ifs <;> (try simp) <;> (try contradiction) <;> omega
    · intro h
      rcases h with h1 | h2 | h3
      · simp only [update_envelope, check_envelope_end, h1]
        split_ifs <;> (try simp) <;> (try contradiction) <;> omega
      · simp only [update_envelope, check_envelope_end, h2]
        split_ifs <;> (try simp) <;> (try contradiction) <;> omega
      · simp only [update_envelope, check_envelope_end, h3]
        split_ifs <;> (try simp) <;> (try contradiction) <;> omega
    · simp only [update_envelope, check_envelope_end]
      split_ifs <;> (try simp) <;> (try contradiction) <;> omega
    · simp only [update_envelope, check_envelope_end]
      split_ifs <;> (try simp) <;> (try contradiction) <;> omega
  · intro T har hdc
    have hlvl : (0 : ℚ) ≤ (s.decay1lvl : ℚ) := by positivity
    simp only [init_envelope]
    refine ⟨?_, ?_, ?_, ?_⟩
    · split_ifs <;>
        first
          | exact le_refl 0
          | exact rat_floor_nonneg _ (mul_nonneg
              (div_nonneg (by norm_num) (le_of_lt (har _ (by omega)))) (by norm_num))
    · split_ifs <;>
        first
          | exact le_refl 0
          | (refine rat_floor_nonneg _ (mul_nonneg (div_nonneg ?_
                (le_of_lt (hdc _ (by omega)))) (by norm_num))
             push_cast
             linarith)
    · split_ifs <;>
        first
          | exact le_refl 0
          | exact rat_floor_nonneg _ (mul_nonneg
              (div_nonneg (by norm_num) (le_of_lt (hdc _ (by omega)))) (by norm_num))
    · split_ifs <;>
        first
          | exact le_refl 0
          | exact rat_floor_nonneg _ (mul_nonneg
              (div_nonneg (by norm_num) (le_of_lt (hdc _ (by omega)))) (by norm_num))

/-- Witness for C8_envelope_monotonic at a concrete decaying slot and the
concrete positive rate tables. -/
theorem C8_envelope_monotonic_witness :
    (0 ≤ slotC4.volume ∧ slotC4.volume ≤ 255 * 65536 ∧
     0 ≤ slotC4.env_attack_step ∧ 0 ≤ slotC4.env_decay1_step ∧
     0 ≤ slotC4.env_decay2_step ∧ 0 ≤ slotC4.env_release_step) ∧
    ((slotC4.env_state = 1 ∨ slotC4.env_state = 2 ∨ slotC4.env_state = 3) →
       (update_envelope slotC4).volume ≤ slotC4.volume) :=
  ⟨⟨by decide, by decide, by decide, by decide, by decide, by decide⟩,
   ((C8_envelope_monotonic slotC4 (by decide) (by decide) (by decide)
      (by decide) (by decide) (by decide)).1.2.1)⟩

theorem acc_factor_eq_max (tl : Nat) :
    (if tl = 0 then (2 : Int) else (tl : Int) * 2) = 2 * max 1 (tl : Int) := by
  cases tl with
  | zero => simp
  | succ n =>
    have h1 : (1 : Int) ≤ (n + 1 : Nat) := by exact_mod_cast Nat.succ_le_succ (Nat.zero_le n)
    simp [Nat.succ_ne_zero, max_eq_right h1]
    ring

/-- Claim C1, amended: for a PCM slot with accon set, each sample of
update_pcm leaves the mix buffer untouched and updates every channel of
the acc buffer to sat18 of the previous cell plus the channel-attenuated
output, where the output is asr (sat18 (sample * k)) 2 with accumulation
factor k = 2 * max 1 tl: the 18-bit saturation is applied BEFORE the
final shift by 2, not after it as the original claim stated (see
C1_counterexample for the divergence at the 0x7F00 / tl = 8 input of the
specification). -/
theorem C1_amended (T : Tables) (mem : List Nat) (s : Slot) (mix acc : Quad)
    (ha : s.accon = true) :
    (update_pcm_sample T mem s mix acc).mix = mix ∧
    (update_pcm_sample T mem s mix acc).acc =
      (let sample := pcm_fetch mem (pcm_loop_advance s).1
       let output := asr (sat18 (sample * (2 * max 1 (s.tl : Int)))) 2
       ⟨sat18 (acc.c0 + asr (output * T.attenuation s.ch0_level) 16),
        sat18 (acc.c1 + asr (output * T.attenuation s.ch1_level) 16),
        sat18 (acc.c2 + asr (output * T.attenuation s.ch2_level) 16),
        sat18 (acc.c3 + asr (output * T.attenuation s.ch3_level) 16)⟩) := by
  unfold update_pcm_sample
  simp only [update_lfo_accon, update_envelope_accon, pcm_loop_advance_accon, ha,
    if_true, update_lfo_tl, update_envelope_tl, pcm_loop_advance_tl,
    update_lfo_ch0, update_envelope_ch0, pcm_loop_advance_ch0,
    update_lfo_ch1, update_envelope_ch1, pcm_loop_advance_ch1,
    update_lfo_ch2, update_envelope_ch2, pcm_loop_advance_ch2,
    update_lfo_ch3, update_envelope_ch3, pcm_loop_advance_ch3,
    acc_factor_eq_max]
  exact ⟨trivial, trivial⟩

/-- Witness for C1_amended at the concrete accon slot slotC1. -/
theorem C1_amended_witness :
    slotC1.accon = true ∧
    (update_pcm_sample tablesW [0x7f] slotC1 quad0 quad0).mix = quad0 ∧
    (update_pcm_sample tablesW [0x7f] slotC1 quad0 quad0).acc =
      (let sample := pcm_fetch [0x7f] (pcm_loop_advance slotC1).1
       let output := asr (sat18 (sample * (2 * max 1 (slotC1.tl : Int)))) 2
       ⟨sat18 (quad0.c0 + asr (output * tablesW.attenuation slotC1.ch0_level) 16),
        sat18 (quad0.c1 + asr (output * tablesW.attenuation slotC1.ch1_level) 16),
        sat18 (quad0.c2 + asr (output * tablesW.attenuation slotC1.ch2_level) 16),
        sat18 (quad0.c3 + asr (output * tablesW.attenuation slotC1.ch3_level) 16)⟩) :=
  ⟨rfl, (C1_amended tablesW [0x7f] slotC1 quad0 quad0 rfl).1,
   (C1_amended tablesW [0x7f] slotC1 quad0 quad0 rfl).2⟩

/-- Counterexample to claim C1 as stated: for the 8-bit sample 0x7F00
(+32512) with tl = 8 and channel level 0 (attenuation 65536, exact), the
per-sample accumulator input computed by update_pcm is 32767 - the code
saturates sample times k = 16 at 18 bits (520192 clamps to 131071) and
THEN shifts right by 2 - whereas the formula of the claim,
sat18((sample * k) >> 2), yields sat18(130048) = 130048, which it calls
not saturated.  (Every table entry this run consults agrees with the
source tables: attenuation 0 = 65536 and plfo at pms 0 equals 1, both
exact IEEE computations.) -/
theorem C1_counterexample :
    (update_pcm_sample tablesW [0x7f] slotC1 quad0 quad0).acc.c0 = 32767 ∧
    sat18 (asr (32512 * (2 * max 1 (8 : Int))) 2) = 130048 ∧
    (32767 : Int) ≠ 130048 := by
  refine ⟨?_, ?_, ?_⟩ <;> decide

/-! Supporting lemmas for the sync-broadcast analysis of claim C2. -/

@[simp] theorem calculate_status_end_slots (c : Chip) (n : Nat) (b : Bool) :
    (calculate_status_end c n b).slots = c.slots := by
  unfold calculate_status_end
  split_ifs <;> rfl

@[simp] theorem getSlot_calculate_status_end (c : Chip) (n : Nat) (b : Bool)
    (j : Nat) : getSlot (calculate_status_end c n b) j = getSlot c j := by
  unfold getSlot
  rw [calculate_status_end_slots]

theorem write_register_ne_zero (T : Tables) (c : Chip) (i reg data : Nat)
    (h : reg ≠ 0) :
    write_register T c i reg data =
      setSlot c i (write_register_slot (getSlot c i) reg data) := by
  unfold write_register
  rw [if_neg h]

@[simp] theorem getSlot_set_keyon_ext_en (T : Tables) (c : Chip) (t j : Nat) :
    (getSlot (setSlot c t (keyon_sync_init T (getSlot c t))) j).ext_en =
      (getSlot c j).ext_en := by
  by_cases h : t = j
  · subst h
    by_cases hl : t < c.slots.length
    · rw [getSlot_setSlot_self c t _ hl, keyon_sync_init_ext_en]
    · unfold getSlot setSlot
      rw [List.set_eq_of_length_le (Nat.le_of_not_lt hl)]
  · rw [getSlot_setSlot_ne c t j _ h]

@[simp] theorem getSlot_set_keyon_ext_out (T : Tables) (c : Chip) (t j : Nat) :
    (getSlot (setSlot c t (keyon_sync_init T (getSlot c t))) j).ext_out =
      (getSlot c j).ext_out := by
  by_cases h : t = j
  · subst h
    by_cases hl : t < c.slots.length
    · rw [getSlot_setSlot_self c t _ hl, keyon_sync_init_ext_out]
    · unfold getSlot setSlot
      rw [List.set_eq_of_length_le (Nat.le_of_not_lt hl)]
  · rw [getSlot_setSlot_ne c t j _ h]

theorem fm_tab_fm_addr : ∀ gg : Fin 12,
    fm_tab.getD (fm_addr (gg : Nat)) 0 = (((gg : Nat)) : Int) := by decide

/-- The sync-0 broadcast path of ymf271_write_fm: a synchronised register
written at bank 0 of a group in sync mode 0 is dispatched as four
write_register calls, one per bank. -/
theorem write_fm_sync0_broadcast (T : Tables) (c : Chip) (g : Fin 12)
    (reg data address : Nat)
    (hsync : (getGroup c (g : Nat)).sync = 0)
    (hreg : reg = 0 ∨ reg = 9 ∨ reg = 10 ∨ reg = 12 ∨ reg = 13 ∨ reg = 14)
    (haddr1 : address &&& 0xf = fm_addr g)
    (haddr2 : (address >>> 4) &&& 0xf = reg) :
    ymf271_write_fm T c 0 address data =
      write_register T (write_register T (write_register T
        (write_register T c (g : Nat) reg data)
        (12 + (g : Nat)) reg data) (24 + (g : Nat)) reg data)
        (36 + (g : Nat)) reg data := by
  unfold ymf271_write_fm
  simp only [haddr1, fm_tab_fm_addr g, haddr2, hsync, Int.toNat_ofNat]
  rw [if_neg (by exact Int.not_lt.mpr (Int.natCast_nonneg _))]
  rw [if_pos (⟨Or.inl ⟨trivial, trivial⟩, hreg⟩ : _ ∧ _), if_pos trivial]

theorem write_register_length (T : Tables) (c : Chip) (i reg data : Nat) :
    (write_register T c i reg data).slots.length = c.slots.length := by
  unfold write_register
  split_ifs <;> simp [setSlot, calculate_status_end]
  all_goals split_ifs <;> simp

theorem write_register_zero_ext_self (T : Tables) (c : Chip) (i data : Nat)
    (hi : i < c.slots.length) :
    (getSlot (write_register T c i 0 data) i).ext_en =
      (if data &&& 0x80 ≠ 0 then 1 else 0) ∧
    (getSlot (write_register T c i 0 data) i).ext_out =
      (data >>> 3) &&& 0xf := by
  unfold write_register
  rw [if_pos rfl]
  by_cases hk : data &&& 1 ≠ 0
  · rw [if_pos hk]
    by_cases hA : (getGroup c (i % 12)).sync = 0 ∧ i / 12 = 0
    · rw [if_pos hA]
      simp only [getSlot_set_keyon_ext_en, getSlot_set_keyon_ext_out]
      simp only [getSlot_calculate_status_end]
      rw [getSlot_setSlot_self c i _ hi]
      constructor <;> simp
    · rw [if_neg hA]
      by_cases hB : (getGroup c (i % 12)).sync = 1 ∧ i / 12 = 0
      · rw [if_pos hB]
        simp only [getSlot_set_keyon_ext_en, getSlot_set_keyon_ext_out]
        simp only [getSlot_calculate_status_end]
        rw [getSlot_setSlot_self c i _ hi]
        constructor <;> simp
      · rw [if_neg hB]
        by_cases hC : (getGroup c (i % 12)).sync = 1 ∧ i / 12 = 1
        · rw [if_pos hC]
          simp only [getSlot_set_keyon_ext_en, getSlot_set_keyon_ext_out]
          simp only [getSlot_calculate_status_end]
          rw [getSlot_setSlot_self c i _ hi]
          constructor <;> simp
        · rw [if_neg hC]
          by_cases hD : (getGroup c (i % 12)).sync = 2 ∧ i / 12 = 0
          · rw [if_pos hD]
            simp only [getSlot_set_keyon_ext_en, getSlot_set_keyon_ext_out]
            simp only [getSlot_calculate_status_end]
            rw [getSlot_setSlot_self c i _ hi]
            constructor <;> simp
          · rw [if_neg hD]
            simp only [getSlot_calculate_status_end]
            rw [getSlot_setSlot_self c i _ hi]
            constructor <;> simp
  · rw [if_neg hk]
    rw [getSlot_setSlot_self c i _ hi]
    by_cases hact : (getSlot c i).active <;> simp [hact]

theorem write_register_zero_ext_other (T : Tables) (c : Chip) (i j data : Nat)
    (hj : j ≠ i) :
    (getSlot (write_register T c i 0 data) j).ext_en = (getSlot c j).ext_en ∧
    (getSlot (write_register T c i 0 data) j).ext_out =
      (getSlot c j).ext_out := by
  unfold write_register
  rw [if_pos rfl]
  by_cases hk : data &&& 1 ≠ 0
  · rw [if_pos hk]
    by_cases hA : (getGroup c (i % 12)).sync = 0 ∧ i / 12 = 0
    · rw [if_pos hA]
      simp only [getSlot_set_keyon_ext_en, getSlot_set_keyon_ext_out]
      simp only [getSlot_calculate_status_end]
      rw [getSlot_setSlot_ne c i j _ (fun hh => hj hh.symm)]
      exact ⟨rfl, rfl⟩
    · rw [if_neg hA]
      by_cases hB : (getGroup c (i % 12)).sync = 1 ∧ i / 12 = 0
      · rw [if_pos hB]
        simp only [getSlot_set_keyon_ext_en, getSlot_set_keyon_ext_out]
        simp only [getSlot_calculate_status_end]
        rw [getSlot_setSlot_ne c i j _ (fun hh => hj hh.symm)]
        exact ⟨rfl, rfl⟩
      · rw [if_neg hB]
        by_cases hC : (getGroup c (i % 12)).sync = 1 ∧ i / 12 = 1
        · rw [if_pos hC]
          simp only [getSlot_set_keyon_ext_en, getSlot_set_keyon_ext_out]
          simp only [getSlot_calculate_status_end]
          rw [getSlot_setSlot_ne c i j _ (fun hh => hj hh.symm)]
          exact ⟨rfl, rfl⟩
        · rw [if_neg hC]
          by_cases hD : (getGroup c (i % 12)).sync = 2 ∧ i / 12 = 0
          · rw [if_pos hD]
            simp only [getSlot_set_keyon_ext_en, getSlot_set_keyon_ext_out]
            simp only [getSlot_calculate_status_end]
            rw [getSlot_setSlot_ne c i j _ (fun hh => hj hh.symm)]
            exact ⟨rfl, rfl⟩
          · rw [if_neg hD]
            simp only [getSlot_calculate_status_end]
            rw [getSlot_setSlot_ne c i j _ (fun hh => hj hh.symm)]
            exact ⟨rfl, rfl⟩
  · rw [if_neg hk]
    rw [getSlot_setSlot_ne c i j _ (fun hh => hj hh.symm)]
    exact ⟨rfl, rfl⟩

theorem chain_zero_ext (T : Tables) (c : Chip) (i0 i1 i2 i3 data : Nat)
    (hl0 : i0 < c.slots.length) (hl1 : i1 < c.slots.length)
    (hl2 : i2 < c.slots.length) (hl3 : i3 < c.slots.length)
    (h01 : i0 ≠ i1) (h02 : i0 ≠ i2) (h03 : i0 ≠ i3)
    (h12 : i1 ≠ i2) (h13 : i1 ≠ i3) (h23 : i2 ≠ i3) :
    ∀ k, (k = i0 ∨ k = i1 ∨ k = i2 ∨ k = i3) →
      (getSlot (write_register T (write_register T (write_register T
          (write_register T c i0 0 data) i1 0 data) i2 0 data) i3 0 data)
        k).ext_en = (if data &&& 0x80 ≠ 0 then 1 else 0) ∧
      (getSlot (write_register T (write_register T (write_register T
          (write_register T c i0 0 data) i1 0 data) i2 0 data) i3 0 data)
        k).ext_out = (data >>> 3) &&& 0xf := by
  have L1 : (write_register T c i0 0 data).slots.length = c.slots.length :=
    write_register_length T c i0 0 data
  have L2 : (write_register T (write_register T c i0 0 data) i1 0
      data).slots.length = c.slots.length := by
    rw [write_register_length, L1]
  have L3 : (write_register T (write_register T (write_register T c i0 0
      data) i1 0 data) i2 0 data).slots.length = c.slots.length := by
    rw [write_register_length, L2]
  intro k hk
  rcases hk with rfl | rfl | rfl | rfl
  · have h1 := write_register_zero_ext_self T c k data hl0
    have h2 := write_register_zero_ext_other T (write_register T c k 0 data)
      i1 k data h01
    have h3 := write_register_zero_ext_other T (write_register T
      (write_register T c k 0 data) i1 0 data) i2 k data h02
    have h4 := write_register_zero_ext_other T (write_register T
      (write_register T (write_register T c k 0 data) i1 0 data) i2 0 data)
      i3 k data h03
    exact ⟨h4.1.trans (h3.1.trans (h2.1.trans h1.1)),
           h4.2.trans (h3.2.trans (h2.2.trans h1.2))⟩
  · have h1 := write_register_zero_ext_self T (write_register T c i0 0 data)
      k data (by omega)
    have h3 := write_register_zero_ext_other T (write_register T
      (write_register T c i0 0 data) k 0 data) i2 k data h12
    have h4 := write_register_zero_ext_other T (write_register T
      (write_register T (write_register T c i0 0 data) k 0 data) i2 0 data)
      i3 k data h13
    exact ⟨h4.1.trans (h3.1.trans h1.1), h4.2.trans (h3.2.trans h1.2)⟩
  · have h1 := write_register_zero_ext_self T (write_register T
      (write_register T c i0 0 data) i1 0 data) k data (by omega)
    have h4 := write_register_zero_ext_other T (write_register T
      (write_register T (write_register T c i0 0 data) i1 0 data) k 0 data)
      i3 k data h23
    exact ⟨h4.1.trans h1.1, h4.2.trans h1.2⟩
  · have h1 := write_register_zero_ext_self T (write_register T
      (write_register T (write_register T c i0 0 data) i1 0 data) i2 0 data)
      k data (by omega)
    exact h1

theorem chain_ne_zero_val (T : Tables) (c : Chip) (i0 i1 i2 i3 reg data : Nat)
    (hreg : reg ≠ 0)
    (hl0 : i0 < c.slots.length) (hl1 : i1 < c.slots.length)
    (hl2 : i2 < c.slots.length) (hl3 : i3 < c.slots.length)
    (h01 : i0 ≠ i1) (h02 : i0 ≠ i2) (h03 : i0 ≠ i3)
    (h12 : i1 ≠ i2) (h13 : i1 ≠ i3) (h23 : i2 ≠ i3) :
    ∀ k, (k = i0 ∨ k = i1 ∨ k = i2 ∨ k = i3) →
      getSlot (write_register T (write_register T (write_register T
          (write_register T c i0 reg data) i1 reg data) i2 reg data) i3 reg
          data) k = write_register_slot (getSlot c k) reg data := by
  have hw : ∀ (cc : Chip) (t : Nat), write_register T cc t reg data =
      setSlot cc t (write_register_slot (getSlot cc t) reg data) :=
    fun cc t => write_register_ne_zero T cc t reg data hreg
  intro k hk
  rcases hk with rfl | rfl | rfl | rfl
  · rw [hw, hw, hw, hw]
    rw [getSlot_setSlot_ne _ i3 k _ (Ne.symm h03)]
    rw [getSlot_setSlot_ne _ i2 k _ (Ne.symm h02)]
    rw [getSlot_setSlot_ne _ i1 k _ (Ne.symm h01)]
    rw [getSlot_setSlot_self _ k _ hl0]
  · rw [hw, hw, hw, hw]
    rw [getSlot_setSlot_ne _ i3 k _ (Ne.symm h13)]
    rw [getSlot_setSlot_ne _ i2 k _ (Ne.symm h12)]
    rw [getSlot_setSlot_self _ k _ (by simp [setSlot]; omega)]
    rw [getSlot_setSlot_ne _ i0 k _ h01]
  · rw [hw, hw, hw, hw]
    rw [getSlot_setSlot_ne _ i3 k _ (Ne.symm h23)]
    rw [getSlot_setSlot_self _ k _ (by simp [setSlot]; omega)]
    rw [getSlot_setSlot_ne _ i1 k _ h12]
    rw [getSlot_setSlot_ne _ i0 k _ h02]
  · rw [hw, hw, hw, hw]
    rw [getSlot_setSlot_self _ k _ (by simp [setSlot]; omega)]
    rw [getSlot_setSlot_ne _ i2 k _ h23]
    rw [getSlot_setSlot_ne _ i1 k _ h13]
    rw [getSlot_setSlot_ne _ i0 k _ h03]

/-- Claim C2, amended: writing one of the six synchronised FM registers
(0x0, 0x9, 0xA, 0xC, 0xD, 0xE) to the key-on slot (bank 0) of a group in
sync mode 0 dispatches the write to all four member slots; the written
field then agrees on all four slots for registers 0x0, 0xA, 0xC, 0xD and
0xE unconditionally, and for register 0x9 provided the four member slots
hold the same latched fns_hi (register 0x9 computes fns and block from
each slot's own fns_hi, so the broadcast values can differ otherwise -
see C2_counterexample).  Registers outside the synchronised set are
written to the addressed slot only. -/
theorem C2_amended (T : Tables) (c : Chip) (g : Fin 12)
    (reg data address : Nat)
    (hlen : c.slots.length = 48)
    (hsync : (getGroup c (g : Nat)).sync = 0)
    (hreg : reg = 0 ∨ reg = 9 ∨ reg = 10 ∨ reg = 12 ∨ reg = 13 ∨ reg = 14)
    (haddr1 : address &&& 0xf = fm_addr g)
    (haddr2 : (address >>> 4) &&& 0xf = reg)
    (h9 : reg = 9 →
       (getSlot c (12 + (g : Nat))).fns_hi = (getSlot c (g : Nat)).fns_hi ∧
       (getSlot c (24 + (g : Nat))).fns_hi = (getSlot c (g : Nat)).fns_hi ∧
       (getSlot c (36 + (g : Nat))).fns_hi = (getSlot c (g : Nat)).fns_hi) :
    (sync_field reg (getSlot (ymf271_write_fm T c 0 address data) (12 + (g : Nat))) =
       sync_field reg (getSlot (ymf271_write_fm T c 0 address data) (g : Nat)) ∧
     sync_field reg (getSlot (ymf271_write_fm T c 0 address data) (24 + (g : Nat))) =
       sync_field reg (getSlot (ymf271_write_fm T c 0 address data) (g : Nat)) ∧
     sync_field reg (getSlot (ymf271_write_fm T c 0 address data) (36 + (g : Nat))) =
       sync_field reg (getSlot (ymf271_write_fm T c 0 address data) (g : Nat))) ∧
    (∀ reg2 data2 bank2 address2,
       ¬(reg2 = 0 ∨ reg2 = 9 ∨ reg2 = 10 ∨ reg2 = 12 ∨ reg2 = 13 ∨ reg2 = 14) →
       address2 &&& 0xf = fm_addr g →
       (address2 >>> 4) &&& 0xf = reg2 →
       ∀ j, j ≠ 12 * bank2 + (g : Nat) →
         getSlot (ymf271_write_fm T c bank2 address2 data2) j = getSlot c j) := by
  have hg : (g : Nat) < 12 := g.isLt
  constructor
  · rw [write_fm_sync0_broadcast T c g reg data address hsync hreg haddr1 haddr2]
    have hl0 : (g : Nat) < c.slots.length := by omega
    have hl1 : 12 + (g : Nat) < c.slots.length := by omega
    have hl2 : 24 + (g : Nat) < c.slots.length := by omega
    have hl3 : 36 + (g : Nat) < c.slots.length := by omega
    rcases hreg with rfl | rfl | rfl | rfl | rfl | rfl
    · have h := chain_zero_ext T c (g : Nat) (12 + (g : Nat)) (24 + (g : Nat))
        (36 + (g : Nat)) data hl0 hl1 hl2 hl3 (by omega) (by omega) (by omega)
        (by omega) (by omega) (by omega)
      have e0 := h (g : Nat) (Or.inl rfl)
      have e1 := h (12 + (g : Nat)) (Or.inr (Or.inl rfl))
      have e2 := h (24 + (g : Nat)) (Or.inr (Or.inr (Or.inl rfl)))
      have e3 := h (36 + (g : Nat)) (Or.inr (Or.inr (Or.inr rfl)))
      simp [sync_field, e0.1, e0.2, e1.1, e1.2, e2.1, e2.2, e3.1, e3.2]
    · have h := chain_ne_zero_val T c (g : Nat) (12 + (g : Nat)) (24 + (g : Nat))
        (36 + (g : Nat)) 9 data (by decide) hl0 hl1 hl2 hl3 (by omega) (by omega)
        (by omega) (by omega) (by omega) (by omega)
      have e0 := h (g : Nat) (Or.inl rfl)
      have e1 := h (12 + (g : Nat)) (Or.inr (Or.inl rfl))
      have e2 := h (24 + (g : Nat)) (Or.inr (Or.inr (Or.inl rfl)))
      have e3 := h (36 + (g : Nat)) (Or.inr (Or.inr (Or.inr rfl)))
      obtain ⟨f1, f2, f3⟩ := h9 rfl
      simp [sync_field, e0, e1, e2, e3, write_register_slot, f1, f2, f3]
    · have h := chain_ne_zero_val T c (g : Nat) (12 + (g : Nat)) (24 + (g : Nat))
        (36 + (g : Nat)) 10 data (by decide) hl0 hl1 hl2 hl3 (by omega) (by omega)
        (by omega) (by omega) (by omega) (by omega)
      have e0 := h (g : Nat) (Or.inl rfl)
      have e1 := h (12 + (g : Nat)) (Or.inr (Or.inl rfl))
      have e2 := h (24 + (g : Nat)) (Or.inr (Or.inr (Or.inl rfl)))
      have e3 := h (36 + (g : Nat)) (Or.inr (Or.inr (Or.inr rfl)))
      simp [sync_field, e0, e1, e2, e3, write_register_slot]
    · have h := chain_ne_zero_val T c (g : Nat) (12 + (g : Nat)) (24 + (g : Nat))
        (36 + (g : Nat)) 12 data (by decide) hl0 hl1 hl2 hl3 (by omega) (by omega)
        (by omega) (by omega) (by omega) (by omega)
      have e0 := h (g : Nat) (Or.inl rfl)
      have e1 := h (12 + (g : Nat)) (Or.inr (Or.inl rfl))
      have e2 := h (24 + (g : Nat)) (Or.inr (Or.inr (Or.inl rfl)))
      have e3 := h (36 + (g : Nat)) (Or.inr (Or.inr (Or.inr rfl)))
      simp [sync_field, e0, e1, e2, e3, write_register_slot]
    · have h := chain_ne_zero_val T c (g : Nat) (12 + (g : Nat)) (24 + (g : Nat))
        (36 + (g : Nat)) 13 data (by decide) hl0 hl1 hl2 hl3 (by omega) (by omega)
        (by omega) (by omega) (by omega) (by omega)
      have e0 := h (g : Nat) (Or.inl rfl)
      have e1 := h (12 + (g : Nat)) (Or.inr (Or.inl rfl))
      have e2 := h (24 + (g : Nat)) (Or.inr (Or.inr (Or.inl rfl)))
      have e3 := h (36 + (g : Nat)) (Or.inr (Or.inr (Or.inr rfl)))
      simp [sync_field, e0, e1, e2, e3, write_register_slot]
    · have h := chain_ne_zero_val T c (g : Nat) (12 + (g : Nat)) (24 + (g : Nat))
        (36 + (g : Nat)) 14 data (by decide) hl0 hl1 hl2 hl3 (by omega) (by omega)
        (by omega) (by omega) (by omega) (by omega)
      have e0 := h (g : Nat) (Or.inl rfl)
      have e1 := h (12 + (g : Nat)) (Or.inr (Or.inl rfl))
      have e2 := h (24 + (g : Nat)) (Or.inr (Or.inr (Or.inl rfl)))
      have e3 := h (36 + (g : Nat)) (Or.inr (Or.inr (Or.inr rfl)))
      simp [sync_field, e0, e1, e2, e3, write_register_slot]
  · intro reg2 data2 bank2 address2 hnot ha1 ha2 j hj
    unfold ymf271_write_fm
    simp only [ha1, fm_tab_fm_addr g, ha2, Int.toNat_ofNat]
    rw [if_neg (by exact Int.not_lt.mpr (Int.natCast_nonneg _))]
    rw [if_neg (fun hcond => hnot hcond.2)]
    rw [write_register_ne_zero T c _ reg2 data2 (fun h0 => hnot (Or.inl h0))]
    exact getSlot_setSlot_ne c _ j _ (fun hh => hj hh.symm)

/-- Witness for C2_amended: writing register 0xC (algorithm) with data 5
to bank 0 of group 3 of a freshly started chip (sync mode 0) sets the
algorithm field of all four member slots to 5. -/
theorem C2_amended_witness :
    chip0.slots.length = 48 ∧ (getGroup chip0 ((3 : Fin 12) : Nat)).sync = 0 ∧
    (sync_field 12 (getSlot (ymf271_write_fm tablesW chip0 0 0xC4 5)
        (12 + ((3 : Fin 12) : Nat))) =
      sync_field 12 (getSlot (ymf271_write_fm tablesW chip0 0 0xC4 5)
        ((3 : Fin 12) : Nat)) ∧
     sync_field 12 (getSlot (ymf271_write_fm tablesW chip0 0 0xC4 5)
        (24 + ((3 : Fin 12) : Nat))) =
      sync_field 12 (getSlot (ymf271_write_fm tablesW chip0 0 0xC4 5)
        ((3 : Fin 12) : Nat)) ∧
     sync_field 12 (getSlot (ymf271_write_fm tablesW chip0 0 0xC4 5)
        (36 + ((3 : Fin 12) : Nat))) =
      sync_field 12 (getSlot (ymf271_write_fm tablesW chip0 0 0xC4 5)
        ((3 : Fin 12) : Nat))) :=
  ⟨by simp [chip0], by decide,
   (C2_amended tablesW chip0 3 12 5 0xC4 (by simp [chip0]) (by decide)
     (Or.inr (Or.inr (Or.inr (Or.inl rfl)))) (by decide) (by decide)
     (fun h => absurd h (by decide))).1⟩

/-- Counterexample to claim C2 as stated: chipC2 is reached from a fresh
chip by setting group 0 to sync 3, writing fns_hi = 1 to bank 0 and
fns_hi = 2 to bank 1 (not broadcast under sync 3), restoring sync 0, and
then writing sync register 0x9 with data 0 to the key-on slot; the write
is broadcast to all four member slots, but the resulting fns fields are
0x100 on bank 0 and 0x200 on bank 1, not the same value. -/
theorem C2_counterexample :
    (getGroup chipC2 0).sync = 0 ∧
    (getSlot chipC2 0).fns = 0x100 ∧
    (getSlot chipC2 12).fns = 0x200 ∧
    (getSlot chipC2 0).fns ≠ (getSlot chipC2 12).fns := by
  refine ⟨?_, ?_, ?_, ?_⟩ <;> decide

end YMF271
